import Mathlib

/-!
Verification of the Pronto port-call event standard (`Event_spec.ts`) and of
the conformance validator its specification document describes.

The TypeScript source is a set of pure type declarations: scalar string types
with regex patterns, object interfaces, discriminated unions and closed string
enumerations.  We embed those declarations directly.  The validator itself is
not part of the source tree; every definition implementing validator behaviour
is marked `Modelled from the spec:` in its doc comment and follows the
specification document's wording.
-/

/-! ## Character classes used by the source's regex patterns -/

/-- Lower-case hexadecimal digit, the class `[0-9a-f]` of the UUID pattern. -/
def isHexLower (c : Char) : Bool :=
  ('0' ≤ c && c ≤ '9') || ('a' ≤ c && c ≤ 'f')

/-- The class `[A-Z]` of the UNLOCODE pattern. -/
def isUpperAZ (c : Char) : Bool :=
  'A' ≤ c && c ≤ 'Z'

/-- The class `[A-Z2-9]` of the UNLOCODE pattern. -/
def isUpperOrDigit29 (c : Char) : Bool :=
  isUpperAZ c || ('2' ≤ c && c ≤ '9')

/-- The class `[0-9]`. -/
def isDigit09 (c : Char) : Bool :=
  '0' ≤ c && c ≤ '9'

/-- The class `[a-zA-Z]`. -/
def isAlpha (c : Char) : Bool :=
  ('a' ≤ c && c ≤ 'z') || ('A' ≤ c && c ≤ 'Z')

/-- The class `[a-zA-Z0-9\-_]` of the LocalPortcallId pattern. -/
def isIdChar (c : Char) : Bool :=
  isAlpha c || isDigit09 c || c = '-' || c = '_'

/-- The class `[a-zA-Z0-9_]` of the MovementId/BerthVisitId/ServiceId patterns. -/
def isWordChar (c : Char) : Bool :=
  isAlpha c || isDigit09 c || c = '_'

/-! ## A small anchored-regex evaluator

Patterns in the source are all of the form `^ piece piece ... $`, each piece a
character class with an exact repetition count or a literal character.  We
evaluate them by consuming the string's character list piece by piece. -/

/-- Consume exactly `n` characters satisfying `p`; return the rest. -/
def takeExact (p : Char → Bool) : Nat → List Char → Option (List Char)
  | 0, cs => some cs
  | _ + 1, [] => none
  | n + 1, c :: cs => if p c then takeExact p n cs else none

/-- Consume one literal character `c`; return the rest. -/
def lit (c : Char) : List Char → Option (List Char)
  | [] => none
  | d :: cs => if d = c then some cs else none

/-! ## Scalar patterns of the source -/

/-- The UUID regex of the source, as written there. -/
def uuidPatternStr : String :=
  "^[0-9a-f]\x7b8\x7d-[0-9a-f]\x7b4\x7d-[1-5][0-9a-f]\x7b3\x7d-[89ab][0-9a-f]\x7b3\x7d-[0-9a-f]\x7b12\x7d$"

/-- The version character class `[1-5]` of the UUID pattern. -/
def isUuidVersion (c : Char) : Bool :=
  '1' ≤ c && c ≤ '5'

/-- The variant character class `[89ab]` of the UUID pattern. -/
def isUuidVariant (c : Char) : Bool :=
  c = '8' || c = '9' || c = 'a' || c = 'b'

/-- The piece-by-piece consumption of the source's UUID pattern. -/
def uuidChain (cs : List Char) : Option (List Char) :=
  (takeExact isHexLower 8 cs).bind (lit '-')
    |>.bind (takeExact isHexLower 4) |>.bind (lit '-')
    |>.bind (takeExact isUuidVersion 1)
    |>.bind (takeExact isHexLower 3) |>.bind (lit '-')
    |>.bind (takeExact isUuidVariant 1)
    |>.bind (takeExact isHexLower 3) |>.bind (lit '-')
    |>.bind (takeExact isHexLower 12)

/-- Full-string match of the source's UUID pattern
`^[0-9a-f]{8}-[0-9a-f]{4}-[1-5][0-9a-f]{3}-[89ab][0-9a-f]{3}-[0-9a-f]{12}$`. -/
def uuidMatch (s : String) : Bool :=
  match uuidChain s.data with
  | some [] => true
  | _ => false

/-- The piece-by-piece consumption of the UNLOCODE prefix `[A-Z]{2}[A-Z2-9]{3}`. -/
def unlocodeChain (cs : List Char) : Option (List Char) :=
  (takeExact isUpperAZ 2 cs).bind (takeExact isUpperOrDigit29 3)

/-- Full-string match of the source's UNLOCODE pattern `^[A-Z]{2}[A-Z2-9]{3}$`. -/
def unlocodeMatch (s : String) : Bool :=
  match unlocodeChain s.data with
  | some [] => true
  | _ => false

/-- Full-string match of the source's LocalPortcallId pattern
`^[A-Z]{2}[A-Z2-9]{3}[a-zA-Z0-9\-_]{1,32}$`. -/
def lpidMatch (s : String) : Bool :=
  match unlocodeChain s.data with
  | some rest =>
      decide (1 ≤ rest.length) && decide (rest.length ≤ 32) && rest.all isIdChar
  | none => false

/-- Full-string match of the IMO pattern `^[0-9]{7}$`. -/
def imoMatch (s : String) : Bool :=
  s.data.all isDigit09 && s.data.length == 7

/-- Full-string match of the ENI pattern `^[0-9]{8}$`. -/
def eniMatch (s : String) : Bool :=
  s.data.all isDigit09 && s.data.length == 8

/-- Full-string match of the MMSI pattern `^[0-9]{9}$`. -/
def mmsiMatch (s : String) : Bool :=
  s.data.all isDigit09 && s.data.length == 9

/-- Full-string match of the USCG pattern
`^(?:[0-9]{6,8}|[a-zA-Z][0-9]{6,7}|[a-zA-Z]{2}[0-9]{6})$`. -/
def uscgMatch (s : String) : Bool :=
  (s.data.all isDigit09 && decide (6 ≤ s.data.length) && decide (s.data.length ≤ 8)) ||
  (match s.data with
   | c :: rest =>
       isAlpha c && rest.all isDigit09 &&
         decide (6 ≤ rest.length) && decide (rest.length ≤ 7)
   | [] => false) ||
  (match s.data with
   | a :: b :: rest => isAlpha a && isAlpha b && rest.all isDigit09 && rest.length == 6
   | _ => false)

/-- Full-string match of the GLN pattern `^[0-9]{13}$`. -/
def glnMatch (s : String) : Bool :=
  s.data.all isDigit09 && s.data.length == 13

/-- Full-string match of the GLNExtension pattern `^[0-9]{1,20}$`. -/
def glnExtensionMatch (s : String) : Bool :=
  s.data.all isDigit09 && decide (1 ≤ s.data.length) && decide (s.data.length ≤ 20)

/-! ## Splitting a string on a separator character -/

/-- Split a character list at every occurrence of `sep` (auxiliary). -/
def splitSepAux (sep : Char) : List Char → List Char → List (List Char)
  | [], acc => [acc.reverse]
  | c :: cs, acc =>
      if c = sep then acc.reverse :: splitSepAux sep cs []
      else splitSepAux sep cs (c :: acc)

/-- Split a string at every occurrence of `sep`. -/
def splitSep (sep : Char) (s : String) : List String :=
  (splitSepAux sep s.data []).map String.mk

/-- Split a string at every dot, as the compound `eventType` format requires. -/
def splitDots (s : String) : List String :=
  splitSep '.' s

/-- Full-string match of the MovementId-family patterns
`^PRE-[a-zA-Z0-9_]+-[a-zA-Z0-9_]+$`: after the given prefix tag and a dash,
the rest must be exactly two nonempty word-character chunks joined by a dash. -/
def idTripleMatch (tag : String) (s : String) : Bool :=
  match takeExact (fun _ => true) tag.data.length s.data with
  | some rest =>
      (s.data.take tag.data.length == tag.data) &&
      (match lit '-' rest with
       | some rest2 =>
           (match splitSepAux '-' rest2 [] with
            | [c1, c2] => decide (1 ≤ c1.length) && decide (1 ≤ c2.length) &&
                c1.all isWordChar && c2.all isWordChar
            | _ => false)
       | none => false)
  | none => false

/-- Match of the MovementId pattern `^MID-[a-zA-Z0-9_]+-[a-zA-Z0-9_]+$`. -/
def movementIdMatch (s : String) : Bool := idTripleMatch "MID" s

/-- Match of the BerthVisitId pattern `^BID-[a-zA-Z0-9_]+-[a-zA-Z0-9_]+$`. -/
def berthVisitIdMatch (s : String) : Bool := idTripleMatch "BID" s

/-- Match of the ServiceId pattern `^SID-[a-zA-Z0-9_]+-[a-zA-Z0-9_]+$`. -/
def serviceIdMatch (s : String) : Bool := idTripleMatch "SID" s

/-- Match of the OrganisationPortcallId pattern `^PID-[a-zA-Z0-9_]+-[a-zA-Z0-9_]+$`. -/
def organisationPortcallIdMatch (s : String) : Bool := idTripleMatch "PID" s

/-- Modelled from the spec: the source gives `ISO8601DateTime` only a
`date-time` format tag and documents the shape `YYYY-MM-DDThh:mm:ssTZD` with a
mandatory timezone designator `Z` or a numeric offset `±hh:mm`; the validator's
lexical engine checks that shape.  The arithmetic validity of the calendar
fields is not part of the documented rule. -/
def dateTimeMatch (s : String) : Bool :=
  match (takeExact isDigit09 4 s.data).bind (lit '-')
      |>.bind (takeExact isDigit09 2) |>.bind (lit '-')
      |>.bind (takeExact isDigit09 2) |>.bind (lit 'T')
      |>.bind (takeExact isDigit09 2) |>.bind (lit ':')
      |>.bind (takeExact isDigit09 2) |>.bind (lit ':')
      |>.bind (takeExact isDigit09 2) with
  | some ['Z'] => true
  | some (sign :: tz) =>
      (sign = '+' || sign = '-') &&
      (match (takeExact isDigit09 2 tz).bind (lit ':') |>.bind (takeExact isDigit09 2) with
       | some [] => true
       | _ => false)
  | _ => false
/-- The closed `EventType` enumeration of the source, in declaration order. -/
def eventTypeList : List String := [
  "anchorArea.ata.vessel",
  "anchorArea.atd.vessel",
  "anchorArea.eta.portAuthority",
  "anchorArea.ata.portAuthority",
  "anchorArea.etd.portAuthority",
  "anchorArea.atd.portAuthority",
  "berth.ata.portAuthority",
  "berth.ata.terminal",
  "berth.ata.vessel",
  "berth.ata.carrier",
  "berth.atd.portAuthority",
  "berth.atd.terminal",
  "berth.atd.vessel",
  "berth.ata.carrier",
  "berth.cancel.agent",
  "berth.cancel.portAuthority",
  "berth.cancel.terminal",
  "berth.eta.agent",
  "berth.eta.pilot",
  "berth.eta.portAuthority",
  "berth.eta.predictor",
  "berth.etd.agent",
  "berth.etd.pilot",
  "berth.etd.carrier",
  "berth.etd.predictor",
  "berth.etd.terminal",
  "berth.etd.carrier",
  "berth.pta.terminal",
  "berth.ptd.portAuthority",
  "berth.ptd.terminal",
  "berth.rta.terminal",
  "berth.rtd.portAuthority",
  "bunkerPW.atc.vessel",
  "bunkerPW.ats.vessel",
  "bunkerService.atc.bunkerService",
  "bunkerService.atc.portAuthority",
  "bunkerService.atc.vessel",
  "bunkerService.ats.bunkerService",
  "bunkerService.ats.portAuthority",
  "bunkerService.ats.vessel",
  "bunkerService.cancel.bunkerService",
  "bunkerService.cancel.portAuthority",
  "bunkerService.etc.bunkerService",
  "bunkerService.ets.bunkerService",
  "cargoOperations.atc.terminal",
  "cargoOperations.ats.terminal",
  "cargoOperations.etc.terminal",
  "cargoOperations.ets.terminal",
  "customs.atc.vessel",
  "customs.ats.vessel",
  "fairway.ata.vessel",
  "firstLineReleased.at.linesmen",
  "firstLineReleased.at.vessel",
  "firstLineSecured.at.linesmen",
  "firstLineSecured.at.vessel",
  "floatingCrane.atc.vessel",
  "floatingCrane.ats.vessel",
  "immigration.atc.vessel",
  "immigration.ats.vessel",
  "lastLineReleased.at.linesmen",
  "lastLineReleased.at.vessel",
  "lastLineSecured.at.linesmen",
  "lastLineSecured.at.vessel",
  "pilotBoardingPlace.ata.vessel",
  "pilotBoardingPlace.ata.carrier",
  "pilotBoardingPlace.atd.vessel",
  "pilotBoardingPlace.atd.carrier",
  "pilotBoardingPlace.eta.agent",
  "pilotBoardingPlace.eta.pilot",
  "pilotBoardingPlace.eta.predictor",
  "pilotBoardingPlace.eta.vessel",
  "pilotBoardingPlace.eta.carrier",
  "pilotBoardingPlace.etd.predictor",
  "pilotBoardingPlace.etd.carrier",
  "pilotBoardingPlace.pta.portAuthority",
  "pilotBoardingPlace.rta.portAuthority",
  "pilotDisembarked.at.pilot",
  "pilotDisembarked.at.portAuthority",
  "pilotDisembarked.at.vessel",
  "pilotOnBoard.at.pilot",
  "pilotOnBoard.at.portAuthority",
  "pilotOnBoard.at.vessel",
  "pilotOnBoard.et.pilot",
  "port.ata.agent",
  "port.ata.portAuthority",
  "port.ata.vessel",
  "port.ata.carrier",
  "port.atd.agent",
  "port.atd.portAuthority",
  "port.atd.vessel",
  "port.atd.carrier",
  "port.cancel.agent",
  "port.cancel.portAuthority",
  "port.cancel.carrier",
  "port.eta.agent",
  "port.eta.portAuthority",
  "port.eta.carrier",
  "port.etd.agent",
  "port.etd.portAuthority",
  "port.etd.carrier",
  "portAuthority.atc.vessel",
  "portAuthority.ats.vessel",
  "portBasin.ata.vessel",
  "provision.atc.vessel",
  "provision.ats.vessel",
  "slops.atc.vessel",
  "slops.ats.vessel",
  "surveyor.ets.serviceProvider",
  "surveyor.etc.serviceProvider",
  "tender.atc.vessel",
  "tender.ats.vessel",
  "tugsStandby.et.portAuthority",
  "tugsStandby.at.portAuthority",
  "tugsNoMoreStandby.et.portAuthority",
  "tugsNoMoreStandby.at.portAuthority",
  "vtsArea.ata.vessel",
  "vtsArea.atd.vessel",
  "waste.atc.vessel",
  "waste.ats.vessel",
  "waste.ets.serviceProvider",
  "waste.etc.serviceProvider",
  "waste.ats.serviceProvider",
  "waste.atc.serviceProvider",
  "waste.cancel.serviceProvider"]

/-- The `PortActivity` enumeration of the source, transcribed verbatim (including the trailing space the source writes in one entry). -/
def portActivityList : List String := [
  "anchorArea",
  "approachArea",
  "barge",
  "berth",
  "bunkerPW",
  "bunkerService",
  "cargoOperations",
  "customs",
  "distanceToPort",
  "fairway",
  "firstLineReleased",
  "firstLineSecured",
  "floatingCrane",
  "immigration",
  "lastLineReleased",
  "lastLineSecured",
  "pilotBoardingPlace",
  "pilotDisembarked",
  "pilotOnBoard",
  "port",
  "portAuthority ",
  "portBasin",
  "provision",
  "slops",
  "surveyor",
  "tender",
  "vtsArea",
  "waste"]

/-- The `TimeType` enumeration of the source. -/
def timeTypeList : List String := [
  "at",
  "ata",
  "atc",
  "atd",
  "ats",
  "cancel",
  "declare",
  "et",
  "eta",
  "etc",
  "etd",
  "ets",
  "pta",
  "ptd",
  "rta",
  "rtd"]

/-- The `EventParty` enumeration of the source. -/
def eventPartyList : List String := [
  "agent",
  "bunkerService",
  "carrier",
  "linesmen",
  "pilot",
  "predictor",
  "portAuthority",
  "serviceProvider",
  "terminal",
  "tugService"]

/-- The `EventLocationType` enumeration of the source. -/
def eventLocationTypeList : List String := [
  "anchorArea",
  "approachArea",
  "berth",
  "fairway",
  "pilotBoardingPlace",
  "port",
  "portBasin",
  "terminal",
  "tugArea"]

/-! ## The candidate value model and the violation taxonomy -/

/-- A JSON-compatible candidate value, as the spec's external interface takes.
Numbers are modelled as rationals, which is faithful for every comparison the
schema performs (presence, shape and equality checks). -/
inductive Json where
  | null : Json
  | bool : Bool → Json
  | num : Rat → Json
  | str : String → Json
  | arr : List Json → Json
  | obj : List (String × Json) → Json

/-- Modelled from the spec: violation severity (`"error" | "warning"`). -/
inductive Severity where
  | error : Severity
  | warning : Severity
deriving DecidableEq, Repr

/-- Modelled from the spec: the violation taxonomy of its error-handling
design (LexicalViolation, PresenceViolation, TypeMismatchViolation,
DiscriminatorViolation, SemanticViolation, UnknownFieldViolation). -/
inductive ViolationKind where
  | lexical : ViolationKind
  | presence : ViolationKind
  | typeMismatch : ViolationKind
  | discriminator : ViolationKind
  | semantic : ViolationKind
  | unknownField : ViolationKind
deriving DecidableEq, Repr

/-- Modelled from the spec: the rule identifier a violation cites. -/
inductive RuleRef where
  /-- A regex pattern, cited verbatim. -/
  | pattern : String → RuleRef
  /-- A closed list of allowed values. -/
  | allowedValues : List String → RuleRef
  /-- A required field was absent or null. -/
  | requiredField : RuleRef
  /-- A conditional at-least-one-of group over the named fields. -/
  | conditionalGroup : List String → RuleRef
  /-- The value's shape does not match the named expected type. -/
  | expectedType : String → RuleRef
  /-- A field not declared by a type without the extension allowance. -/
  | undeclaredField : RuleRef
  /-- A dependent-field rule (first field requires the second). -/
  | dependentField : String → String → RuleRef
  /-- A named cross-field semantic rule. -/
  | semanticRule : String → RuleRef
deriving DecidableEq, Repr

/-- Modelled from the spec: a violation records a path into the candidate, its
taxonomy kind, a severity and the rule it cites. -/
structure Violation where
  path : List String
  kind : ViolationKind
  severity : Severity
  rule : RuleRef
deriving DecidableEq, Repr

/-- Modelled from the spec: the validation verdict — `valid` plus the list of
violations; `valid` is true iff no error-severity violation exists. -/
structure ValidationResult where
  valid : Bool
  violations : List Violation
deriving DecidableEq, Repr

/-- First value bound to key `k` in an object's field list. -/
def lookupField (k : String) : List (String × Json) → Option Json
  | [] => none
  | (k', v) :: fields => if k' = k then some v else lookupField k fields

/-! ## Generic structural checks (modelled from the spec) -/

/-- Modelled from the spec: fields present but not declared, in a type without
the extension allowance, are each reported as an UnknownFieldViolation. -/
def unknownFieldViols (declared : List String) (path : List String)
    (fields : List (String × Json)) : List Violation :=
  fields.filterMap fun f =>
    if declared.contains f.1 then none
    else some ⟨path ++ [f.1], .unknownField, .error, .undeclaredField⟩

/-- Modelled from the spec: a required field must be present and non-null;
when present it is checked by the field's own rule. -/
def checkRequired (path : List String) (fields : List (String × Json))
    (k : String) (chk : List String → Json → List Violation) : List Violation :=
  match lookupField k fields with
  | none => [⟨path ++ [k], .presence, .error, .requiredField⟩]
  | some .null => [⟨path ++ [k], .presence, .error, .requiredField⟩]
  | some v => chk (path ++ [k]) v

/-- Modelled from the spec: an optional field is checked only when present. -/
def checkOptional (path : List String) (fields : List (String × Json))
    (k : String) (chk : List String → Json → List Violation) : List Violation :=
  match lookupField k fields with
  | none => []
  | some v => chk (path ++ [k]) v

/-- Modelled from the spec: the lexical engine checks a declared regex against
the full string; a non-string value is a type mismatch. -/
def chkPattern (pat : String → Bool) (patStr : String)
    (path : List String) (j : Json) : List Violation :=
  match j with
  | .str s => if pat s then [] else [⟨path, .lexical, .error, .pattern patStr⟩]
  | _ => [⟨path, .typeMismatch, .error, .expectedType "string"⟩]

/-- Modelled from the spec: a field that must be a plain string. -/
def chkString (path : List String) (j : Json) : List Violation :=
  match j with
  | .str _ => []
  | _ => [⟨path, .typeMismatch, .error, .expectedType "string"⟩]

/-- Modelled from the spec: a field that must be a boolean. -/
def chkBool (path : List String) (j : Json) : List Violation :=
  match j with
  | .bool _ => []
  | _ => [⟨path, .typeMismatch, .error, .expectedType "boolean"⟩]

/-- Modelled from the spec: a field that must be a number. -/
def chkNumber (path : List String) (j : Json) : List Violation :=
  match j with
  | .num _ => []
  | _ => [⟨path, .typeMismatch, .error, .expectedType "number"⟩]

/-- Modelled from the spec: a number with the inclusive bound `minimum: 0`
(the `serviceShipNumber` rule). -/
def chkNumberMin0 (path : List String) (j : Json) : List Violation :=
  match j with
  | .num q => if 0 ≤ q then [] else [⟨path, .lexical, .error, .pattern "minimum 0"⟩]
  | _ => [⟨path, .typeMismatch, .error, .expectedType "number"⟩]

/-- Modelled from the spec: a field that must be an array of strings
(the `stakeholders` rule). -/
def chkStringArray (path : List String) (j : Json) : List Violation :=
  match j with
  | .arr xs =>
      if xs.all (fun x => match x with | .str _ => true | _ => false) then []
      else [⟨path, .typeMismatch, .error, .expectedType "string[]"⟩]
  | _ => [⟨path, .typeMismatch, .error, .expectedType "string[]"⟩]

/-- Modelled from the spec: a value constrained to a closed list of literal
string values (EnumRule); the violation cites the closed list. -/
def chkEnum (allowed : List String) (path : List String) (j : Json) : List Violation :=
  match j with
  | .str s => if allowed.contains s then []
      else [⟨path, .semantic, .error, .allowedValues allowed⟩]
  | _ => [⟨path, .typeMismatch, .error, .expectedType "string"⟩]

/-! ## The eventType check -/

/-- Modelled from the spec: the validator confirms the `eventType` tuple is one
of the registry's enumerated valid combinations; the list is closed and
explicit, and the violation references it. -/
def checkEventType (path : List String) (s : String) : List Violation :=
  if eventTypeList.contains s then []
  else [⟨path, .semantic, .error, .allowedValues eventTypeList⟩]

/-- Modelled from the spec: the `eventType` field rule — a string checked
against the closed combination list. -/
def chkEventTypeField (path : List String) (j : Json) : List Violation :=
  match j with
  | .str s => checkEventType path s
  | _ => [⟨path, .typeMismatch, .error, .expectedType "string"⟩]

/-- Activity component of a compound `eventType` value (part before the first
dot). -/
def activityOf (s : String) : String :=
  (splitDots s).headD ""

/-- Party component of a compound `eventType` value (part after the last
dot). -/
def partyOf (s : String) : String :=
  (splitDots s).getLastD ""

/-! ## The ship object -/

/-- The field names declared by the source's `IShip` interface. -/
def shipDeclaredKeys : List String := ["imo", "eni", "mmsi", "uscg", "name"]

/-- The conditional ship-identity group of the source's `IShip` doc comment:
at least an IMO, ENI, USCG or MMSI must be provided. -/
def shipIdKeys : List String := ["imo", "eni", "mmsi", "uscg"]

/-- Modelled from the spec: validation of the `IShip` object — each identifier
is optional and pattern-checked when present, `name` is informative, unknown
fields are violations, and absence of all four identifiers is a single
PresenceViolation at the object path (`minProperties` semantics). -/
def validateShipFields (path : List String) (fields : List (String × Json)) :
    List Violation :=
  unknownFieldViols shipDeclaredKeys path fields ++
  checkOptional path fields "imo" (chkPattern imoMatch "^[0-9]\x7b7\x7d$") ++
  checkOptional path fields "eni" (chkPattern eniMatch "^[0-9]\x7b8\x7d$") ++
  checkOptional path fields "mmsi" (chkPattern mmsiMatch "^[0-9]\x7b9\x7d$") ++
  checkOptional path fields "uscg"
    (chkPattern uscgMatch "^(?:[0-9]\x7b6,8\x7d|[a-zA-Z][0-9]\x7b6,7\x7d|[a-zA-Z]\x7b2\x7d[0-9]\x7b6\x7d)$") ++
  checkOptional path fields "name" chkString ++
  (if (lookupField "imo" fields).isNone && (lookupField "eni" fields).isNone &&
      (lookupField "mmsi" fields).isNone && (lookupField "uscg" fields).isNone then
    [⟨path, .presence, .error, .conditionalGroup shipIdKeys⟩]
  else [])

/-- Modelled from the spec: the `ship` field rule — an `IShip` object. -/
def chkShip (path : List String) (j : Json) : List Violation :=
  match j with
  | .obj fields => validateShipFields path fields
  | _ => [⟨path, .typeMismatch, .error, .expectedType "object"⟩]

/-! ## The mooring object -/

/-- The field names declared by the source's `mooring` object type. -/
def mooringDeclaredKeys : List String :=
  ["bollardFore", "bollardAft", "doubleBanked", "orientation"]

/-- Modelled from the spec: validation of the source's `mooring` object —
`bollardFore` and `bollardAft` are required numbers (possibly fractional),
`doubleBanked` an optional boolean, `orientation` an optional literal
`"port" | "starboard"`, and unknown fields are violations. -/
def validateMooringFields (path : List String) (fields : List (String × Json)) :
    List Violation :=
  unknownFieldViols mooringDeclaredKeys path fields ++
  checkRequired path fields "bollardFore" chkNumber ++
  checkRequired path fields "bollardAft" chkNumber ++
  checkOptional path fields "doubleBanked" chkBool ++
  checkOptional path fields "orientation" (chkEnum ["port", "starboard"])

/-- Modelled from the spec: the `context.mooring` field rule. -/
def chkMooring (path : List String) (j : Json) : List Violation :=
  match j with
  | .obj fields => validateMooringFields path fields
  | _ => [⟨path, .typeMismatch, .error, .expectedType "object"⟩]

/-! ## The context object -/

/-- The keys with pre-defined meanings in the source's `IEventContext`. -/
def contextDeclaredKeys : List String :=
  ["clearance", "distanceToLocationNM", "draught", "mooring", "serviceShip",
   "serviceShipNumber", "movementId", "berthVisitId", "serviceId",
   "organisationPortcallId", "stakeholders"]

/-- Modelled from the spec: validation of `IEventContext` — a key-value object
in which users are allowed to put custom keys for any purpose, so unknown keys
are never violations; the keys with pre-defined meanings are all optional and
validated strictly when present. -/
def validateContextFields (path : List String) (fields : List (String × Json)) :
    List Violation :=
  checkOptional path fields "clearance" chkBool ++
  checkOptional path fields "distanceToLocationNM" chkNumber ++
  checkOptional path fields "draught" chkNumber ++
  checkOptional path fields "mooring" chkMooring ++
  checkOptional path fields "serviceShip" chkShip ++
  checkOptional path fields "serviceShipNumber" chkNumberMin0 ++
  checkOptional path fields "movementId"
    (chkPattern movementIdMatch "^MID-[a-zA-Z0-9_]+-[a-zA-Z0-9_]+$") ++
  checkOptional path fields "berthVisitId"
    (chkPattern berthVisitIdMatch "^BID-[a-zA-Z0-9_]+-[a-zA-Z0-9_]+$") ++
  checkOptional path fields "serviceId"
    (chkPattern serviceIdMatch "^SID-[a-zA-Z0-9_]+-[a-zA-Z0-9_]+$") ++
  checkOptional path fields "organisationPortcallId"
    (chkPattern organisationPortcallIdMatch "^PID-[a-zA-Z0-9_]+-[a-zA-Z0-9_]+$") ++
  checkOptional path fields "stakeholders" chkStringArray

/-- Modelled from the spec: the `context` field rule. -/
def chkContext (path : List String) (j : Json) : List Violation :=
  match j with
  | .obj fields => validateContextFields path fields
  | _ => [⟨path, .typeMismatch, .error, .expectedType "object"⟩]

/-! ## Geometry: the discriminated union `Point | Polygon` -/

/-- A candidate GeoPosition per the source: an array of exactly two numbers. -/
def asPosition : Json → Option (Rat × Rat)
  | .arr [.num a, .num b] => some (a, b)
  | _ => none

/-- A candidate linear ring: an array of GeoPositions. -/
def ringPositions : Json → Option (List (Rat × Rat))
  | .arr ps => ps.mapM asPosition
  | _ => none

/-- Modelled from the spec: a closed ring — at least 4 positions with the
first and the last position equal. -/
def ringClosedOK (j : Json) : Bool :=
  match ringPositions j with
  | some ps => decide (4 ≤ ps.length) && decide (ps.head? = ps.getLast?)
  | none => false

/-- Modelled from the spec: the `Point` coordinates rule — exactly 2 numeric
coordinates (the source's `GeoPosition` pair); failing the arity is the
semantic geometry invariant. -/
def chkPointCoords (path : List String) (j : Json) : List Violation :=
  match asPosition j with
  | some _ => []
  | none => [⟨path, .semantic, .error, .semanticRule "Point coordinates must be exactly 2 numbers"⟩]

/-- Modelled from the spec: the `Polygon` coordinates rule — structurally an
array of rings of GeoPositions (the source's `GeoPosition[][]`), and
semantically at least one ring of at least 4 positions with the first and last
position equal (closed ring). -/
def chkPolygonCoords (path : List String) (j : Json) : List Violation :=
  match j with
  | .arr rings =>
      if rings.all (fun r => (ringPositions r).isSome) then
        if rings.any ringClosedOK then []
        else [⟨path, .semantic, .error, .semanticRule "Polygon requires a closed ring of at least 4 positions"⟩]
      else [⟨path, .typeMismatch, .error, .expectedType "GeoPosition[][]"⟩]
  | _ => [⟨path, .typeMismatch, .error, .expectedType "GeoPosition[][]"⟩]

/-- The field names of the source's `IPoint` and `IPolygon` interfaces. -/
def geometryDeclaredKeys : List String := ["type", "coordinates"]

/-- Modelled from the spec: validation of the `IPoint` variant body. -/
def validatePointFields (path : List String) (fields : List (String × Json)) :
    List Violation :=
  unknownFieldViols geometryDeclaredKeys path fields ++
  checkRequired path fields "coordinates" chkPointCoords

/-- Modelled from the spec: validation of the `IPolygon` variant body. -/
def validatePolygonFields (path : List String) (fields : List (String × Json)) :
    List Violation :=
  unknownFieldViols geometryDeclaredKeys path fields ++
  checkRequired path fields "coordinates" chkPolygonCoords

/-- Modelled from the spec: the discriminated-union resolver for `Geometry` —
it reads the discriminator field `type`; if the field is missing or its value
matches no variant it returns a single DiscriminatorViolation naming the
allowed discriminator values and never attempts the variant bodies; on a match
it delegates to the matched variant's structural validation. -/
def resolveGeometry (path : List String) (j : Json) : List Violation :=
  match j with
  | .obj fields =>
      match lookupField "type" fields with
      | some (.str "Point") => validatePointFields path fields
      | some (.str "Polygon") => validatePolygonFields path fields
      | _ => [⟨path ++ ["type"], .discriminator, .error, .allowedValues ["Point", "Polygon"]⟩]
  | _ => [⟨path, .typeMismatch, .error, .expectedType "object"⟩]

/-! ## The location object -/

/-- The field names declared by the source's `IEventLocation` interface. -/
def locationDeclaredKeys : List String := ["type", "gln", "glnExtension", "geo", "name"]

/-- Modelled from the spec: validation of `IEventLocation` — `type` is a
required member of the closed EventLocationType enumeration, `gln`,
`glnExtension`, `geo` and `name` are optional, `glnExtension` present without
`gln` is a dependent-field violation, and unknown fields are violations. -/
def validateLocationFields (path : List String) (fields : List (String × Json)) :
    List Violation :=
  unknownFieldViols locationDeclaredKeys path fields ++
  checkRequired path fields "type" (chkEnum eventLocationTypeList) ++
  checkOptional path fields "gln" (chkPattern glnMatch "^[0-9]\x7b13\x7d$") ++
  checkOptional path fields "glnExtension" (chkPattern glnExtensionMatch "^[0-9]\x7b1,20\x7d$") ++
  checkOptional path fields "geo" resolveGeometry ++
  checkOptional path fields "name" chkString ++
  (if (lookupField "glnExtension" fields).isSome && (lookupField "gln" fields).isNone then
    [⟨path ++ ["glnExtension"], .semantic, .error, .dependentField "glnExtension" "gln"⟩]
  else [])

/-- Modelled from the spec: the `location` field rule. -/
def chkLocation (path : List String) (j : Json) : List Violation :=
  match j with
  | .obj fields => validateLocationFields path fields
  | _ => [⟨path, .typeMismatch, .error, .expectedType "object"⟩]

/-! ## The root event object -/

/-- The field names declared by the source's `IEvent` interface. -/
def eventDeclaredKeys : List String :=
  ["uuid", "version", "source", "eventType", "recordTime", "eventTime",
   "ship", "port", "portcallId", "location", "context"]

/-- The required field names of the source's `IEvent` interface. -/
def eventRequiredKeys : List String :=
  ["uuid", "version", "source", "eventType", "recordTime", "eventTime", "ship", "port"]

/-- Modelled from the spec: the cross-field semantic rules that depend on
`eventType` — `context.mooring` is only meaningful when the activity component
is `berth`, and `context.clearance` only with a `portAuthority` party;
presence elsewhere is a warning-class SemanticViolation, non-fatal. -/
def crossFieldViols (fields : List (String × Json)) : List Violation :=
  match lookupField "eventType" fields, lookupField "context" fields with
  | some (.str et), some (.obj ctx) =>
      (match lookupField "mooring" ctx with
       | some _ =>
           if activityOf et = "berth" then []
           else [⟨["context", "mooring"], .semantic, .warning,
                 .semanticRule "mooring is associated with berth events"⟩]
       | none => []) ++
      (match lookupField "clearance" ctx with
       | some _ =>
           if partyOf et = "portAuthority" then []
           else [⟨["context", "clearance"], .semantic, .warning,
                 .semanticRule "clearance is used with port.xxx.portAuthority events"⟩]
       | none => [])
  | _, _ => []

/-- Modelled from the spec: validation of the root `IEvent` object — every
required field present and non-null and checked by its rule, the optional
fields checked when present, unknown fields reported (the root has no
extension allowance), then the cross-field semantic rules. -/
def validateEventFields (fields : List (String × Json)) : List Violation :=
  unknownFieldViols eventDeclaredKeys [] fields ++
  checkRequired [] fields "uuid" (chkPattern uuidMatch uuidPatternStr) ++
  checkRequired [] fields "version" (chkEnum ["3.2.1"]) ++
  checkRequired [] fields "source" chkString ++
  checkRequired [] fields "eventType" chkEventTypeField ++
  checkRequired [] fields "recordTime" (chkPattern dateTimeMatch "date-time") ++
  checkRequired [] fields "eventTime" (chkPattern dateTimeMatch "date-time") ++
  checkRequired [] fields "ship" chkShip ++
  checkRequired [] fields "port" (chkPattern unlocodeMatch "^[A-Z]\x7b2\x7d[A-Z2-9]\x7b3\x7d$") ++
  checkOptional [] fields "portcallId"
    (chkPattern lpidMatch "^[A-Z]\x7b2\x7d[A-Z2-9]\x7b3\x7d[a-zA-Z0-9\\-_]\x7b1,32\x7d$") ++
  checkOptional [] fields "location" chkLocation ++
  checkOptional [] fields "context" chkContext ++
  crossFieldViols fields

/-- Modelled from the spec: the whole validator — a non-object candidate is a
type mismatch; the verdict's `valid` is true iff no error-severity violation
exists, so warning-class violations never flip it to false. -/
def validateEvent (j : Json) : ValidationResult :=
  match j with
  | .obj fields =>
      let vs := validateEventFields fields
      ⟨vs.all (fun v => v.severity == .warning), vs⟩
  | _ => ⟨false, [⟨[], .typeMismatch, .error, .expectedType "object"⟩]⟩
/-- The declarative reading of the source's RFC-4122 UUID pattern: five
dash-separated lower-case hex groups of lengths 8-4-4-4-12, with the version
digit in `[1-5]` and the variant digit in `[89ab]`, covering the whole
string. -/
def rfc4122Shape (s : String) : Prop :=
  ∃ (g1 g2 g3 g4 g5 : List Char) (v r : Char),
    s.data = g1 ++ ('-' :: (g2 ++ ('-' :: (v :: (g3 ++ ('-' :: (r :: (g4 ++ ('-' :: g5))))))))) ∧
    g1.length = 8 ∧ g2.length = 4 ∧ g3.length = 3 ∧ g4.length = 3 ∧ g5.length = 12 ∧
    g1.all isHexLower = true ∧ g2.all isHexLower = true ∧ g3.all isHexLower = true ∧
    g4.all isHexLower = true ∧ g5.all isHexLower = true ∧
    isUuidVersion v = true ∧ isUuidVariant r = true


/-! ## Concrete example values used by the verification -/

/-- A GeoJSON Polygon candidate whose single ring's first and last
coordinates differ (an open ring). -/
def openPolygonExample : Json := .obj [("type", .str "Polygon"),
  ("coordinates", .arr [.arr [.arr [.num 0, .num 0], .arr [.num 0, .num 1],
    .arr [.num 1, .num 1], .arr [.num 1, .num 0]]])]

/-- The field list of a GeoJSON Polygon candidate with the same ring closed. -/
def closedPolygonFields : List (String × Json) := [("type", .str "Polygon"),
  ("coordinates", .arr [.arr [.arr [.num 0, .num 0], .arr [.num 0, .num 1],
    .arr [.num 1, .num 1], .arr [.num 1, .num 0], .arr [.num 0, .num 0]]])]

/-- The closed-ring Polygon candidate. -/
def closedPolygonExample : Json := .obj closedPolygonFields

/-- The field list of a GeoJSON Point candidate. -/
def pointExampleFields : List (String × Json) :=
  [("type", .str "Point"), ("coordinates", .arr [.num 4, .num 52])]

/-- The field list of an otherwise fully valid event with `context.mooring`
present while `eventType = "port.ata.agent"` (a non-berth activity). -/
def mooringWarningFields : List (String × Json) := [
  ("uuid", .str "3f29b1aa-0a1e-4c3d-9abc-1234567890ab"),
  ("version", .str "3.2.1"),
  ("source", .str "test-system"),
  ("eventType", .str "port.ata.agent"),
  ("recordTime", .str "2017-09-01T12:00:12Z"),
  ("eventTime", .str "2017-09-01T12:00:12Z"),
  ("ship", .obj [("imo", .str "1234567")]),
  ("port", .str "NLRTM"),
  ("context", .obj [("mooring", .obj [("bollardFore", .num 12), ("bollardAft", .num 14)])])]

/-- The non-berth event with `context.mooring` present, as a candidate. -/
def mooringWarningExample : Json := .obj mooringWarningFields

/-- An event candidate with an invalid `uuid` and a `location.geo` whose
discriminator value `"Circle"` matches no Geometry variant. -/
def badGeoExample : Json := .obj [
  ("uuid", .str "not-a-uuid"),
  ("version", .str "3.2.1"),
  ("source", .str "test-system"),
  ("eventType", .str "berth.ata.vessel"),
  ("recordTime", .str "2017-09-01T12:00:12Z"),
  ("eventTime", .str "2017-09-01T12:00:12Z"),
  ("ship", .obj [("imo", .str "1234567")]),
  ("port", .str "NLRTM"),
  ("location", .obj [("type", .str "berth"), ("geo", .obj [("type", .str "Circle")])])]

/-! ## Lemmas about the anchored-regex evaluator -/

/-- Decomposition: a successful `takeExact` splits the input into a consumed
block of exactly `n` characters of the class and the returned rest. -/
theorem takeExact_sound {p : Char → Bool} :
    ∀ {n : Nat} {cs rest : List Char}, takeExact p n cs = some rest →
      ∃ pre, cs = pre ++ rest ∧ pre.length = n ∧ pre.all p = true := by
  intro n
  induction n with
  | zero =>
      intro cs rest h
      simp only [takeExact, Option.some.injEq] at h
      exact ⟨[], by simp [h]⟩
  | succ n ih =>
      intro cs rest h
      match cs with
      | [] => simp [takeExact] at h
      | c :: cs' =>
          simp only [takeExact] at h
          by_cases hc : p c
          · rw [if_pos hc] at h
            obtain ⟨pre, hsplit, hlen, hall⟩ := ih h
            exact ⟨c :: pre, by simp [hsplit, hlen, hall, hc]⟩
          · rw [if_neg hc] at h
            exact absurd h (by simp)

/-- Construction: `takeExact` consumes a block of exactly `n` characters of
the class and returns the rest. -/
theorem takeExact_append {p : Char → Bool} :
    ∀ {pre : List Char} {n : Nat}, pre.length = n → pre.all p = true →
      ∀ rest, takeExact p n (pre ++ rest) = some rest := by
  intro pre
  induction pre with
  | nil => intro n hn _ rest; subst hn; simp [takeExact]
  | cons c pre ih =>
      intro n hn hall rest
      subst hn
      simp only [List.all_cons, Bool.and_eq_true] at hall
      simp [takeExact, hall.1, ih rfl hall.2 rest]

/-- Decomposition for a literal-character piece. -/
theorem lit_sound {c : Char} {cs rest : List Char} (h : lit c cs = some rest) :
    cs = c :: rest := by
  match cs with
  | [] => simp [lit] at h
  | d :: cs' =>
      simp only [lit] at h
      by_cases hd : d = c
      · rw [if_pos hd] at h
        rw [hd, Option.some.inj h]
      · rw [if_neg hd] at h; exact absurd h (by simp)

/-- Construction for a literal-character piece. -/
theorem lit_append (c : Char) (rest : List Char) : lit c (c :: rest) = some rest := by
  simp [lit]

/-- `takeExact` for a single character of a class. -/
theorem takeExact_one {p : Char → Bool} {c : Char} (h : p c = true) (rest : List Char) :
    takeExact p 1 (c :: rest) = some rest := by
  simp [takeExact, h]

/-- Decomposition of a successful UNLOCODE-prefix consumption. -/
theorem unlocodeChain_sound {cs rest : List Char} (h : unlocodeChain cs = some rest) :
    ∃ p1 p2, cs = p1 ++ p2 ++ rest ∧ p1.length = 2 ∧ p2.length = 3 ∧
      p1.all isUpperAZ = true ∧ p2.all isUpperOrDigit29 = true := by
  unfold unlocodeChain at h
  rw [Option.bind_eq_some] at h
  obtain ⟨a1, h1, h2⟩ := h
  obtain ⟨p1, e1, l1, al1⟩ := takeExact_sound h1
  obtain ⟨p2, e2, l2, al2⟩ := takeExact_sound h2
  exact ⟨p1, p2, by rw [e1, e2, List.append_assoc], l1, l2, al1, al2⟩

/-- Construction of an UNLOCODE-prefix consumption. -/
theorem unlocodeChain_append {p1 p2 : List Char} (h1 : p1.length = 2) (h2 : p2.length = 3)
    (a1 : p1.all isUpperAZ = true) (a2 : p2.all isUpperOrDigit29 = true) (rest : List Char) :
    unlocodeChain (p1 ++ p2 ++ rest) = some rest := by
  unfold unlocodeChain
  rw [List.append_assoc, takeExact_append h1 a1]
  simp only [Option.some_bind]
  exact takeExact_append h2 a2 rest

/-- A LocalPortcallId starts with an UNLOCODE: its first five characters match
the UNLOCODE pattern. -/
theorem lpidMatch_take_five (s : String) (h : lpidMatch s = true) :
    unlocodeMatch (String.mk (s.data.take 5)) = true := by
  unfold lpidMatch at h
  rcases hc : unlocodeChain s.data with _ | rest
  · rw [hc] at h; simp at h
  · rw [hc] at h
    obtain ⟨p1, p2, e, l1, l2, al1, al2⟩ := unlocodeChain_sound hc
    have hlen : (p1 ++ p2).length = 5 := by simp [l1, l2]
    have htake : s.data.take 5 = p1 ++ p2 := by
      rw [e]; exact List.take_left' hlen
    unfold unlocodeMatch
    rw [show (String.mk (s.data.take 5)).data = s.data.take 5 from rfl, htake]
    have hz : unlocodeChain (p1 ++ p2 ++ []) = some [] := unlocodeChain_append l1 l2 al1 al2 []
    rw [List.append_nil] at hz
    rw [hz]

/-- An UNLOCODE followed by 1 to 32 identifier characters is a
LocalPortcallId. -/
theorem lpidMatch_of_append (u suf : String) (hu : unlocodeMatch u = true)
    (h1 : 1 ≤ suf.length) (h2 : suf.length ≤ 32) (hall : suf.data.all isIdChar = true) :
    lpidMatch (u ++ suf) = true := by
  unfold unlocodeMatch at hu
  rcases hc : unlocodeChain u.data with _ | rest
  · rw [hc] at hu; simp at hu
  · rw [hc] at hu
    rcases rest with _ | ⟨c, rest'⟩
    · obtain ⟨p1, p2, e, l1, l2, al1, al2⟩ := unlocodeChain_sound hc
      rw [List.append_nil] at e
      unfold lpidMatch
      rw [String.data_append, e, unlocodeChain_append l1 l2 al1 al2 suf.data]
      have hlen : suf.length = suf.data.length := rfl
      simp only [Bool.and_eq_true, decide_eq_true_eq]
      exact ⟨⟨by omega, by omega⟩, hall⟩
    · simp at hu

/-- A list of length one is a singleton. -/
theorem length_one_singleton {l : List Char} (h : l.length = 1) : ∃ c, l = [c] :=
  List.length_eq_one.mp h

/-- The UUID matcher accepts exactly the strings of the declarative RFC-4122
shape; in particular the pattern covers the full string, never a substring. -/
theorem uuidMatch_iff_shape (s : String) : uuidMatch s = true ↔ rfc4122Shape s := by
  constructor
  · intro h
    unfold uuidMatch at h
    rcases hc : uuidChain s.data with _ | rest
    · rw [hc] at h; simp at h
    · rw [hc] at h
      rcases rest with _ | ⟨c, rest'⟩
      case mp.some.nil =>
        unfold uuidChain at hc
        simp only [Option.bind_eq_some] at hc
        obtain ⟨a10, ⟨a9, ⟨a8, ⟨a7, ⟨a6, ⟨a5, ⟨a4, ⟨a3, ⟨a2, ⟨a1, h1, h2⟩, h3⟩, h4⟩, h5⟩, h6⟩, h7⟩, h8⟩, h9⟩, h10⟩, h11⟩ := hc
        obtain ⟨g1, e1, l1, al1⟩ := takeExact_sound h1
        have e2 := lit_sound h2
        obtain ⟨g2, e3, l2, al2⟩ := takeExact_sound h3
        have e4 := lit_sound h4
        obtain ⟨vp, e5, l5, al5⟩ := takeExact_sound h5
        obtain ⟨v, rfl⟩ := length_one_singleton l5
        obtain ⟨g3, e6, l3, al3⟩ := takeExact_sound h6
        have e7 := lit_sound h7
        obtain ⟨rp, e8, l8, al8⟩ := takeExact_sound h8
        obtain ⟨r, rfl⟩ := length_one_singleton l8
        obtain ⟨g4, e9, l4, al4⟩ := takeExact_sound h9
        have e10 := lit_sound h10
        obtain ⟨g5, e11, l5', al5'⟩ := takeExact_sound h11
        rw [List.append_nil] at e11
        refine ⟨g1, g2, g3, g4, g5, v, r, ?_, l1, l2, l3, l4, l5', ?_, ?_, ?_, ?_, ?_, ?_, ?_⟩
        · rw [e1, e2, e3, e4, e5, e6, e7, e8, e9, e10, e11]; simp
        · exact al1
        · exact al2
        · exact al3
        · exact al4
        · exact al5'
        · simpa using al5
        · simpa using al8
      case mp.some.cons => simp at h
  · rintro ⟨g1, g2, g3, g4, g5, v, r, heq, l1, l2, l3, l4, l5, a1, a2, a3, a4, a5, hv, hr⟩
    unfold uuidMatch uuidChain
    rw [heq]
    rw [takeExact_append l1 a1]
    simp only [Option.some_bind]
    rw [lit_append]
    simp only [Option.some_bind]
    rw [takeExact_append l2 a2]
    simp only [Option.some_bind]
    rw [lit_append]
    simp only [Option.some_bind]
    rw [takeExact_one hv]
    simp only [Option.some_bind]
    rw [takeExact_append l3 a3]
    simp only [Option.some_bind]
    rw [lit_append]
    simp only [Option.some_bind]
    rw [takeExact_one hr]
    simp only [Option.some_bind]
    rw [takeExact_append l4 a4]
    simp only [Option.some_bind]
    rw [lit_append]
    simp only [Option.some_bind]
    have hz : takeExact isHexLower 12 (g5 ++ []) = some [] := takeExact_append l5 a5 []
    rw [List.append_nil] at hz
    rw [hz]

/-! ## Lemmas about the validator's building blocks -/

/-- Unknown-field reports never have presence kind. -/
theorem filter_unknownFieldViols (declared path : List String) (fields : List (String × Json)) :
    (unknownFieldViols declared path fields).filter (fun v => v.kind == ViolationKind.presence) = [] := by
  induction fields with
  | nil => rfl
  | cons f fs ih =>
      rw [unknownFieldViols, List.filterMap_cons]
      by_cases h : declared.contains f.1
      · rw [if_pos h]; exact ih
      · rw [if_neg h, List.filter_cons, if_neg (by simp)]; exact ih

/-- Lexical pattern checks never report presence violations. -/
theorem filter_presence_chkPattern (pat : String → Bool) (patStr : String)
    (path : List String) (j : Json) :
    (chkPattern pat patStr path j).filter (fun v => v.kind == ViolationKind.presence) = [] := by
  cases j <;> simp [chkPattern]

/-- Plain string checks never report presence violations. -/
theorem filter_presence_chkString (path : List String) (j : Json) :
    (chkString path j).filter (fun v => v.kind == ViolationKind.presence) = [] := by
  cases j <;> simp [chkString]

/-- An optional field check reports no presence violation when its field rule
reports none. -/
theorem filter_presence_checkOptional (path : List String) (fields : List (String × Json))
    (k : String) (chk : List String → Json → List Violation)
    (h : ∀ p j, (chk p j).filter (fun v => v.kind == ViolationKind.presence) = []) :
    (checkOptional path fields k chk).filter (fun v => v.kind == ViolationKind.presence) = [] := by
  unfold checkOptional
  cases lookupField k fields <;> simp [h]

/-- A successfully parsed GeoPosition is an array of exactly two numbers. -/
theorem asPosition_sound {j : Json} {p : Rat × Rat} (h : asPosition j = some p) :
    j = .arr [.num p.1, .num p.2] := by
  unfold asPosition at h
  split at h
  · next a b =>
      obtain rfl := Option.some.inj h
      rfl
  · exact absurd h (by simp)

/-- A Point coordinates check succeeds only on a parseable GeoPosition. -/
theorem chkPointCoords_eq_nil {path : List String} {j : Json}
    (h : chkPointCoords path j = []) : ∃ p, asPosition j = some p := by
  unfold chkPointCoords at h
  split at h
  · next p hp => exact ⟨p, hp⟩
  · exact absurd h (by simp)

/-- A closed-ring witness: parseable positions, at least 4, first equals last. -/
theorem ringClosedOK_sound {r : Json} (h : ringClosedOK r = true) :
    ∃ ps, ringPositions r = some ps ∧ 4 ≤ ps.length ∧ ps.head? = ps.getLast? := by
  unfold ringClosedOK at h
  split at h
  · next ps hps =>
      simp only [Bool.and_eq_true, decide_eq_true_eq] at h
      exact ⟨ps, hps, h.1, h.2⟩
  · exact absurd h (by simp)

/-- A Polygon coordinates check succeeds only on an array of rings one of
which is closed. -/
theorem chkPolygonCoords_eq_nil {path : List String} {j : Json}
    (h : chkPolygonCoords path j = []) :
    ∃ rings, j = .arr rings ∧ rings.any ringClosedOK = true := by
  unfold chkPolygonCoords at h
  split at h
  · next rings =>
      by_cases hall : rings.all (fun r => (ringPositions r).isSome) = true
      · rw [if_pos hall] at h
        by_cases hany : rings.any ringClosedOK = true
        · exact ⟨rings, rfl, hany⟩
        · rw [if_neg hany] at h; exact absurd h (by simp)
      · rw [if_neg hall] at h; exact absurd h (by simp)
  · exact absurd h (by simp)

/-- An optional field check ignores a leading entry with a different key. -/
theorem checkOptional_cons_ne {path : List String} {fields : List (String × Json)}
    {k key : String} {v : Json} (chk : List String → Json → List Violation)
    (h : k ≠ key) :
    checkOptional path ((k, v) :: fields) key chk = checkOptional path fields key chk := by
  have hl : lookupField key ((k, v) :: fields) = lookupField key fields := by
    simp only [lookupField]
    rw [if_neg h]
  unfold checkOptional
  rw [hl]

/-! ## The claims -/

/-- C1: the claim says every string of the `EventType` enumeration decomposes
into three dot-separated components drawn from the `PortActivity`, `TimeType`
and `EventParty` enumerations.  The source violates its own documented format:
`"berth.ata.vessel"` is an `EventType` whose party component `"vessel"` is not
an `EventParty`, `"portAuthority.atc.vessel"` has an activity component absent
from `PortActivity` (which instead lists `"portAuthority "` with a trailing
space), and `"tugsStandby.at.portAuthority"` has an activity component absent
from `PortActivity` altogether.  This theorem evaluates the enumerations of
the source at those failing inputs. -/
theorem eventType_components_not_enumerated :
    "berth.ata.vessel" ∈ eventTypeList ∧
    splitDots "berth.ata.vessel" = ["berth", "ata", "vessel"] ∧
    "vessel" ∉ eventPartyList ∧
    "portAuthority.atc.vessel" ∈ eventTypeList ∧
    "portAuthority" ∉ portActivityList ∧
    "tugsStandby.at.portAuthority" ∈ eventTypeList ∧
    "tugsStandby" ∉ portActivityList :=
  ⟨by decide, by decide, by decide, by decide, by decide, by decide, by decide⟩

/-- C2: validation of the `eventType` field accepts exactly the strings of the
closed `EventType` list: `"berth.ata.vessel"` validates with no violation, and
any string outside the list — for example `"berth.ata.bogus"` — yields a
violation referencing the closed list of valid combinations. -/
theorem eventType_validation_closed_list (path : List String) :
    (∀ s : String, checkEventType path s = [] ↔ s ∈ eventTypeList) ∧
    checkEventType path "berth.ata.vessel" = [] ∧
    checkEventType path "berth.ata.bogus" =
      [⟨path, .semantic, .error, .allowedValues eventTypeList⟩] := by
  refine ⟨fun s => ?_, ?_, ?_⟩
  · have h : (checkEventType path s = []) ↔ eventTypeList.contains s = true := by
      unfold checkEventType
      by_cases h : eventTypeList.contains s = true <;> simp [h]
    rw [h]; exact List.elem_iff
  · have h : "berth.ata.vessel" ∈ eventTypeList := by decide
    simp [checkEventType, h]
  · have h : "berth.ata.bogus" ∉ eventTypeList := by decide
    simp [checkEventType, h]

/-- C3: a ship object with none of the four identifier fields `imo`, `eni`,
`mmsi`, `uscg` — whatever other fields such as `name` it has — yields exactly
one PresenceViolation, located at the ship object's path, citing the
conditional group; and when at least one of the four is present and
individually valid, no PresenceViolation is reported at all. -/
theorem ship_identifier_conditional_group :
    (∀ path fields,
      lookupField "imo" fields = none → lookupField "eni" fields = none →
      lookupField "mmsi" fields = none → lookupField "uscg" fields = none →
      (validateShipFields path fields).filter (fun v => v.kind == ViolationKind.presence) =
        [⟨path, .presence, .error, .conditionalGroup shipIdKeys⟩]) ∧
    (∀ path fields,
      ((∃ s, lookupField "imo" fields = some (.str s) ∧ imoMatch s = true) ∨
       (∃ s, lookupField "eni" fields = some (.str s) ∧ eniMatch s = true) ∨
       (∃ s, lookupField "mmsi" fields = some (.str s) ∧ mmsiMatch s = true) ∨
       (∃ s, lookupField "uscg" fields = some (.str s) ∧ uscgMatch s = true)) →
      (validateShipFields path fields).filter (fun v => v.kind == ViolationKind.presence) = []) := by
  constructor
  · intro path fields h1 h2 h3 h4
    unfold validateShipFields
    rw [List.filter_append, List.filter_append, List.filter_append, List.filter_append,
      List.filter_append, List.filter_append]
    rw [filter_unknownFieldViols]
    rw [filter_presence_checkOptional _ _ _ _ (fun p j => filter_presence_chkPattern _ _ p j)]
    rw [filter_presence_checkOptional _ _ _ _ (fun p j => filter_presence_chkPattern _ _ p j)]
    rw [filter_presence_checkOptional _ _ _ _ (fun p j => filter_presence_chkPattern _ _ p j)]
    rw [filter_presence_checkOptional _ _ _ _ (fun p j => filter_presence_chkPattern _ _ p j)]
    rw [filter_presence_checkOptional _ _ _ _ (fun p j => filter_presence_chkString p j)]
    rw [h1, h2, h3, h4]
    simp
  · intro path fields h
    unfold validateShipFields
    rw [List.filter_append, List.filter_append, List.filter_append, List.filter_append,
      List.filter_append, List.filter_append]
    rw [filter_unknownFieldViols]
    rw [filter_presence_checkOptional _ _ _ _ (fun p j => filter_presence_chkPattern _ _ p j)]
    rw [filter_presence_checkOptional _ _ _ _ (fun p j => filter_presence_chkPattern _ _ p j)]
    rw [filter_presence_checkOptional _ _ _ _ (fun p j => filter_presence_chkPattern _ _ p j)]
    rw [filter_presence_checkOptional _ _ _ _ (fun p j => filter_presence_chkPattern _ _ p j)]
    rw [filter_presence_checkOptional _ _ _ _ (fun p j => filter_presence_chkString p j)]
    rcases h with ⟨s, hl, _⟩ | ⟨s, hl, _⟩ | ⟨s, hl, _⟩ | ⟨s, hl, _⟩ <;> simp [hl]

/-- C3 witness: a ship with only a `name` gets exactly the one conditional
PresenceViolation; a ship with a valid `imo` gets none. -/
theorem ship_identifier_conditional_group_witness :
    (validateShipFields ["ship"] [("name", .str "Pride of Rotterdam")]).filter
        (fun v => v.kind == ViolationKind.presence) =
      [⟨["ship"], .presence, .error, .conditionalGroup shipIdKeys⟩] ∧
    (validateShipFields ["ship"] [("imo", .str "1234567")]).filter
        (fun v => v.kind == ViolationKind.presence) = [] :=
  ⟨ship_identifier_conditional_group.1 ["ship"] [("name", .str "Pride of Rotterdam")]
      rfl rfl rfl rfl,
   ship_identifier_conditional_group.2 ["ship"] [("imo", .str "1234567")]
      (Or.inl ⟨"1234567", rfl, by decide⟩)⟩

/-- C4: a Point geometry validates only if its coordinates are exactly two
numbers, and a Polygon only if it has at least one ring of at least 4
positions whose first and last positions are equal; in particular the open
Polygon example yields a SemanticViolation and the closed one yields none. -/
theorem geometry_point_arity_polygon_closure :
    (∀ path fields, lookupField "type" fields = some (.str "Point") →
      resolveGeometry path (.obj fields) = [] →
      ∃ q1 q2, lookupField "coordinates" fields = some (.arr [.num q1, .num q2])) ∧
    (∀ path fields, lookupField "type" fields = some (.str "Polygon") →
      resolveGeometry path (.obj fields) = [] →
      ∃ rings, lookupField "coordinates" fields = some (.arr rings) ∧
        ∃ r ∈ rings, ∃ ps, ringPositions r = some ps ∧ 4 ≤ ps.length ∧
          ps.head? = ps.getLast?) ∧
    resolveGeometry [] openPolygonExample = [⟨["coordinates"], .semantic, .error,
      .semanticRule "Polygon requires a closed ring of at least 4 positions"⟩] ∧
    resolveGeometry [] closedPolygonExample = [] := by
  refine ⟨?_, ?_, rfl, rfl⟩
  · intro path fields ht hres
    simp only [resolveGeometry, ht] at hres
    simp only [validatePointFields, List.append_eq_nil] at hres
    obtain ⟨hu, hc⟩ := hres
    rcases hl : lookupField "coordinates" fields with _ | v
    · simp [checkRequired, hl] at hc
    · cases v <;> simp only [checkRequired, hl] at hc
      case null => simp at hc
      all_goals {
        obtain ⟨p, hap⟩ := chkPointCoords_eq_nil hc
        have he := asPosition_sound hap
        exact ⟨p.1, p.2, by rw [he]⟩ }
  · intro path fields ht hres
    simp only [resolveGeometry, ht] at hres
    simp only [validatePolygonFields, List.append_eq_nil] at hres
    obtain ⟨hu, hc⟩ := hres
    rcases hl : lookupField "coordinates" fields with _ | v
    · simp [checkRequired, hl] at hc
    · cases v <;> simp only [checkRequired, hl] at hc
      case null => simp at hc
      all_goals {
        obtain ⟨rings, heq, hany⟩ := chkPolygonCoords_eq_nil hc
        obtain ⟨r, hrmem, hrok⟩ := List.any_eq_true.mp hany
        obtain ⟨ps, hrp, h4, hfl⟩ := ringClosedOK_sound hrok
        rw [heq]
        exact ⟨rings, rfl, r, hrmem, ps, hrp, h4, hfl⟩ }

/-- C4 witness: the Point and closed-Polygon example field lists validate and
expose the required coordinate shapes. -/
theorem geometry_point_arity_polygon_closure_witness :
    (∃ q1 q2, lookupField "coordinates" pointExampleFields =
      some (.arr [.num q1, .num q2])) ∧
    (∃ rings, lookupField "coordinates" closedPolygonFields = some (.arr rings) ∧
      ∃ r ∈ rings, ∃ ps, ringPositions r = some ps ∧ 4 ≤ ps.length ∧
        ps.head? = ps.getLast?) :=
  ⟨geometry_point_arity_polygon_closure.1 [] pointExampleFields rfl (by decide),
   geometry_point_arity_polygon_closure.2.1 [] closedPolygonFields rfl (by decide)⟩

/-- C5: an event with `context.mooring` present whose `eventType` activity
component is not `berth` gets a warning-severity SemanticViolation for the
mooring field; a verdict is valid whenever all violations are warnings, so the
warning never flips `valid` to false — the concrete non-berth example
validates with `valid = true` and exactly that warning. -/
theorem mooring_nonberth_warning_nonfatal :
    (∀ fields ctx et (j : Json), lookupField "eventType" fields = some (.str et) →
      lookupField "context" fields = some (.obj ctx) →
      lookupField "mooring" ctx = some j →
      activityOf et ≠ "berth" →
      (⟨["context", "mooring"], .semantic, .warning,
        .semanticRule "mooring is associated with berth events"⟩ : Violation) ∈
          validateEventFields fields) ∧
    (∀ fields, ((validateEventFields fields).all fun v => v.severity == .warning) = true →
      (validateEvent (.obj fields)).valid = true) ∧
    validateEvent mooringWarningExample = ⟨true,
      [⟨["context", "mooring"], .semantic, .warning,
        .semanticRule "mooring is associated with berth events"⟩]⟩ := by
  refine ⟨?_, ?_, by decide⟩
  · intro fields ctx et j h1 h2 h3 h4
    simp only [validateEventFields]
    apply List.mem_append_right
    simp only [crossFieldViols, h1, h2, h3]
    rw [if_neg h4]
    refine List.mem_append_left _ ?_
    simp
  · intro fields h
    simpa [validateEvent] using h

/-- C5 witness: the concrete non-berth mooring event exercises both general
parts. -/
theorem mooring_nonberth_warning_nonfatal_witness :
    (⟨["context", "mooring"], .semantic, .warning,
      .semanticRule "mooring is associated with berth events"⟩ : Violation) ∈
        validateEventFields mooringWarningFields ∧
    (validateEvent (.obj mooringWarningFields)).valid = true :=
  ⟨mooring_nonberth_warning_nonfatal.1 mooringWarningFields
      [("mooring", .obj [("bollardFore", .num 12), ("bollardAft", .num 14)])]
      "port.ata.agent" (.obj [("bollardFore", .num 12), ("bollardAft", .num 14)])
      rfl rfl rfl (by decide),
   mooring_nonberth_warning_nonfatal.2.1 mooringWarningFields (by decide)⟩

/-- C6: the UUID check accepts exactly the strings of the anchored RFC-4122
shape — five lower-case hex groups `8-4-4-4-12` with version digit `1`–`5`
and variant digit `8/9/a/b`, covering the full string, never a substring;
`"not-a-uuid"` yields a LexicalViolation citing the UUID pattern and
`"3f29b1aa-0a1e-4c3d-9abc-1234567890ab"` yields no violation. -/
theorem uuid_lexical_check_rfc4122 (path : List String) :
    (∀ s : String, chkPattern uuidMatch uuidPatternStr path (.str s) = [] ↔ rfc4122Shape s) ∧
    chkPattern uuidMatch uuidPatternStr path (.str "not-a-uuid") =
      [⟨path, .lexical, .error, .pattern uuidPatternStr⟩] ∧
    chkPattern uuidMatch uuidPatternStr path
      (.str "3f29b1aa-0a1e-4c3d-9abc-1234567890ab") = [] := by
  refine ⟨fun s => ?_, ?_, ?_⟩
  · have h : (chkPattern uuidMatch uuidPatternStr path (.str s) = []) ↔ uuidMatch s = true := by
      simp only [chkPattern]
      by_cases h : uuidMatch s = true <;> simp [h]
    rw [h]
    exact uuidMatch_iff_shape s
  · have h : uuidMatch "not-a-uuid" = false := by decide
    simp [chkPattern, h]
  · have h : uuidMatch "3f29b1aa-0a1e-4c3d-9abc-1234567890ab" = true := by decide
    simp [chkPattern, h]

/-- C7: resolving the Geometry union with a missing or unrecognized
discriminator returns exactly one DiscriminatorViolation naming the allowed
discriminator values and no violations from variant bodies; in the concrete
event with a bad `location.geo` discriminator and a bad `uuid`, the geo
subtree contributes only that single violation while the uuid violation
elsewhere is still accumulated. -/
theorem geometry_discriminator_violation :
    (∀ path fields, lookupField "type" fields ≠ some (.str "Point") →
      lookupField "type" fields ≠ some (.str "Polygon") →
      resolveGeometry path (.obj fields) =
        [⟨path ++ ["type"], .discriminator, .error, .allowedValues ["Point", "Polygon"]⟩]) ∧
    ((⟨["uuid"], .lexical, .error, .pattern uuidPatternStr⟩ : Violation) ∈
        (validateEvent badGeoExample).violations ∧
     (⟨["location", "geo", "type"], .discriminator, .error,
        .allowedValues ["Point", "Polygon"]⟩ : Violation) ∈
        (validateEvent badGeoExample).violations ∧
     ((validateEvent badGeoExample).violations.filter
        (fun v => v.path.take 2 == ["location", "geo"])) =
       [⟨["location", "geo", "type"], .discriminator, .error,
          .allowedValues ["Point", "Polygon"]⟩]) := by
  refine ⟨?_, by decide, by decide, by decide⟩
  intro path fields h1 h2
  rcases hl : lookupField "type" fields with _ | v
  · simp [resolveGeometry, hl]
  · cases v
    case str s =>
      by_cases hs1 : s = "Point"
      · exact absurd (by rw [hl, hs1]) h1
      · by_cases hs2 : s = "Polygon"
        · exact absurd (by rw [hl, hs2]) h2
        · simp [resolveGeometry, hl, hs1, hs2]
    all_goals simp [resolveGeometry, hl]

/-- C7 witness: a `"Circle"` discriminator gets the single
DiscriminatorViolation. -/
theorem geometry_discriminator_violation_witness :
    resolveGeometry ["location", "geo"] (.obj [("type", .str "Circle")]) =
      [⟨["location", "geo"] ++ ["type"], .discriminator, .error,
        .allowedValues ["Point", "Polygon"]⟩] :=
  geometry_discriminator_violation.1 ["location", "geo"] [("type", .str "Circle")]
    (by simp [lookupField]) (by simp [lookupField])

/-- C8: an undeclared key inside the `context` object produces no violation
(adding one leaves the context validation unchanged), whereas an undeclared
key in the root event object or in the ship object — types without the
extension allowance — produces an UnknownFieldViolation; and a required event
field that is absent or null produces a PresenceViolation, so every required
field must be present and non-null for the event to validate. -/
theorem unknown_field_and_required_policy :
    (∀ (path : List String) (k : String) (v : Json) fields, k ∉ contextDeclaredKeys →
      validateContextFields path ((k, v) :: fields) = validateContextFields path fields) ∧
    (∀ fields (k : String) (v : Json), (k, v) ∈ fields → k ∉ eventDeclaredKeys →
      (⟨[k], .unknownField, .error, .undeclaredField⟩ : Violation) ∈ validateEventFields fields) ∧
    (∀ (path : List String) fields (k : String) (v : Json), (k, v) ∈ fields →
      k ∉ shipDeclaredKeys →
      (⟨path ++ [k], .unknownField, .error, .undeclaredField⟩ : Violation) ∈
        validateShipFields path fields) ∧
    (∀ fields r, r ∈ eventRequiredKeys →
      (lookupField r fields = none ∨ lookupField r fields = some .null) →
      (⟨[r], .presence, .error, .requiredField⟩ : Violation) ∈ validateEventFields fields) := by
  refine ⟨?_, ?_, ?_, ?_⟩
  · intro path k v fields hk
    have ne : ∀ key, key ∈ contextDeclaredKeys → k ≠ key := by
      intro key hmem heq
      exact hk (by rw [heq]; exact hmem)
    simp only [validateContextFields]
    rw [checkOptional_cons_ne _ (ne "clearance" (by decide)),
        checkOptional_cons_ne _ (ne "distanceToLocationNM" (by decide)),
        checkOptional_cons_ne _ (ne "draught" (by decide)),
        checkOptional_cons_ne _ (ne "mooring" (by decide)),
        checkOptional_cons_ne _ (ne "serviceShip" (by decide)),
        checkOptional_cons_ne _ (ne "serviceShipNumber" (by decide)),
        checkOptional_cons_ne _ (ne "movementId" (by decide)),
        checkOptional_cons_ne _ (ne "berthVisitId" (by decide)),
        checkOptional_cons_ne _ (ne "serviceId" (by decide)),
        checkOptional_cons_ne _ (ne "organisationPortcallId" (by decide)),
        checkOptional_cons_ne _ (ne "stakeholders" (by decide))]
  · intro fields k v hmem hk
    have hcont : eventDeclaredKeys.contains k = false := by
      cases hcc : eventDeclaredKeys.contains k
      · rfl
      · exact absurd (List.elem_iff.mp hcc) hk
    simp only [validateEventFields]
    repeat apply List.mem_append_left
    refine List.mem_filterMap.mpr ⟨(k, v), hmem, ?_⟩
    simp [hcont, hk]
  · intro path fields k v hmem hk
    have hcont : shipDeclaredKeys.contains k = false := by
      cases hcc : shipDeclaredKeys.contains k
      · rfl
      · exact absurd (List.elem_iff.mp hcc) hk
    simp only [validateShipFields]
    repeat apply List.mem_append_left
    refine List.mem_filterMap.mpr ⟨(k, v), hmem, ?_⟩
    simp [hcont, hk]
  · intro fields r hr hnull
    simp only [eventRequiredKeys] at hr
    simp at hr
    rcases hr with rfl | rfl | rfl | rfl | rfl | rfl | rfl | rfl <;>
      rcases hnull with h | h <;>
      simp [validateEventFields, List.mem_append, checkRequired, h]

/-- C8 witness: a custom context key changes nothing; undeclared root and
ship keys are reported; a missing required `uuid` is reported. -/
theorem unknown_field_and_required_policy_witness :
    validateContextFields ["context"] [("myCustomKey", Json.str "x")] =
      validateContextFields ["context"] [] ∧
    (⟨["bogusKey"], .unknownField, .error, .undeclaredField⟩ : Violation) ∈
      validateEventFields [("uuid", Json.str "u"), ("bogusKey", Json.bool true)] ∧
    (⟨["ship", "color"], .unknownField, .error, .undeclaredField⟩ : Violation) ∈
      validateShipFields ["ship"] [("color", Json.str "red")] ∧
    (⟨["uuid"], .presence, .error, .requiredField⟩ : Violation) ∈ validateEventFields [] :=
  ⟨unknown_field_and_required_policy.1 ["context"] "myCustomKey" (.str "x") [] (by decide),
   unknown_field_and_required_policy.2.1 [("uuid", .str "u"), ("bogusKey", .bool true)]
     "bogusKey" (.bool true) (List.mem_cons_of_mem _ (List.mem_cons_self _ _)) (by decide),
   unknown_field_and_required_policy.2.2.1 ["ship"] [("color", .str "red")] "color"
     (.str "red") (List.mem_cons_self _ _) (by decide),
   unknown_field_and_required_policy.2.2.2 [] "uuid" (by decide) (Or.inl rfl)⟩

/-- C9: the mooring object validates only if `bollardFore` and `bollardAft`
are both present numeric values and `orientation`, when present, is `"port"`
or `"starboard"`; `doubleBanked` and `orientation` are optional — objects
without them (or with valid values for them) validate. -/
theorem mooring_bollards_required :
    (∀ path fields, validateMooringFields path fields = [] →
      (∃ q, lookupField "bollardFore" fields = some (.num q)) ∧
      (∃ q, lookupField "bollardAft" fields = some (.num q)) ∧
      (∀ s, lookupField "orientation" fields = some (.str s) → s = "port" ∨ s = "starboard")) ∧
    (∀ (path : List String) (q1 q2 : Rat),
      validateMooringFields path [("bollardFore", .num q1), ("bollardAft", .num q2)] = []) ∧
    (∀ (path : List String) (q1 q2 : Rat) (b : Bool), validateMooringFields path
      [("bollardFore", .num q1), ("bollardAft", .num q2), ("doubleBanked", .bool b),
       ("orientation", .str "port")] = []) := by
  refine ⟨?_, fun path q1 q2 => rfl, fun path q1 q2 b => rfl⟩
  intro path fields h
  simp only [validateMooringFields, List.append_eq_nil] at h
  obtain ⟨⟨⟨⟨hu, h1⟩, h2⟩, h3⟩, h4⟩ := h
  refine ⟨?_, ?_, ?_⟩
  · rcases hl : lookupField "bollardFore" fields with _ | v
    · simp [checkRequired, hl] at h1
    · cases v <;> simp [checkRequired, hl, chkNumber] at h1
      case num q => exact ⟨q, rfl⟩
  · rcases hl : lookupField "bollardAft" fields with _ | v
    · simp [checkRequired, hl] at h2
    · cases v <;> simp [checkRequired, hl, chkNumber] at h2
      case num q => exact ⟨q, rfl⟩
  · intro s hs
    simp only [checkOptional, hs] at h4
    simp only [chkEnum] at h4
    by_cases hc : ["port", "starboard"].contains s
    · have hm := List.elem_iff.mp hc
      simpa using hm
    · rw [if_neg (by simpa using hc)] at h4
      simp at h4

/-- C9 witness: a mooring object with only the two bollards validates and
exposes the required numeric fields. -/
theorem mooring_bollards_required_witness :
    (∃ q, lookupField "bollardFore"
      [("bollardFore", Json.num 3), ("bollardAft", Json.num 5)] = some (.num q)) ∧
    (∃ q, lookupField "bollardAft"
      [("bollardFore", Json.num 3), ("bollardAft", Json.num 5)] = some (.num q)) ∧
    (∀ s, lookupField "orientation"
      [("bollardFore", Json.num 3), ("bollardAft", Json.num 5)] = some (.str s) →
      s = "port" ∨ s = "starboard") :=
  mooring_bollards_required.1 ["context", "mooring"]
    [("bollardFore", Json.num 3), ("bollardAft", Json.num 5)] rfl

/-- C10: a string matching the LocalPortcallId pattern has its first five
characters matching the UNLOCODE pattern, and conversely an UNLOCODE followed
by 1 to 32 characters drawn from letters, digits, hyphen and underscore
matches the LocalPortcallId pattern. -/
theorem portcallid_unlocode_composition :
    (∀ s : String, lpidMatch s = true → unlocodeMatch (String.mk (s.data.take 5)) = true) ∧
    (∀ u suf : String, unlocodeMatch u = true → 1 ≤ suf.length → suf.length ≤ 32 →
      suf.data.all isIdChar = true → lpidMatch (u ++ suf) = true) :=
  ⟨lpidMatch_take_five, lpidMatch_of_append⟩

/-- C10 witness: the documented example `NLRTM17123456` exercises both
directions. -/
theorem portcallid_unlocode_composition_witness :
    unlocodeMatch (String.mk ("NLRTM17123456".data.take 5)) = true ∧
    lpidMatch ("NLRTM" ++ "17123456") = true :=
  ⟨portcallid_unlocode_composition.1 "NLRTM17123456" (by decide),
   portcallid_unlocode_composition.2 "NLRTM" "17123456"
     (by decide) (by decide) (by decide) (by decide)⟩
